import Mathlib

/-
Verification of the Modbus Register Access Engine of the Sigenergy-Local-Modbus
integration.  The definitions below are a shallow embedding of
`custom_components/sigen/modbus.py` (value codec, register validation, probing,
connection management) together with the constants of
`custom_components/sigen/const.py`.  Machine integers are modelled as `Nat`/`Int`
with explicit masks and moduli; Python's arbitrary-precision `&`, `>>` and `%`
on integers are modelled by Euclidean mod and floor division.  Register names
are modelled as `Nat` (any type with decidable equality would do).  Parts of the
repository that are referenced but whose defining file is not in the source
snapshot (`modbusregisterdefinitions.py`, `_decode_value`, `_encode_value`, the
`async_write_*_parameter` path) are modelled from the specification and marked
as such in their doc comments.
-/

namespace SigenModbus

/-- Register wire encodings.  The values mirror `ModbusClientMixin.DATATYPE`
(modbus.py lines 49-55): uint16, int16, uint32, int32, uint64 and string, which
are the spec's encodings U16, S16, U32, S32, U64 and ASCII. -/
inductive DataType
  | UINT16
  | INT16
  | UINT32
  | INT32
  | UINT64
  | STRING
deriving DecidableEq

/-- Register access classes, as used by `_probe_single_register`
(modbus.py lines 346-363): `READ_ONLY`, `HOLDING` (the read-write class) and
`WRITE_ONLY`.  The defining module `modbusregisterdefinitions.py` is not in the
source snapshot; the constructors are those the visible code matches on, plus
the spec's third access class WriteOnly. -/
inductive RegisterType
  | READ_ONLY
  | HOLDING
  | WRITE_ONLY
deriving DecidableEq

/-- Result of `ModbusClientMixin.convert_from_registers`: a Python int or a
Python string (modelled as its list of byte values). -/
inductive RegValue
  | num (n : Int)
  | str (s : List Nat)
deriving DecidableEq

/-- Python's `x >> k` on an arbitrary-precision integer: arithmetic shift,
i.e. floor division by `2 ^ k`. -/
def pyShr (x : Int) (k : Nat) : Int :=
  Int.fdiv x (2 ^ k)

/-- Python's `x & m` on an arbitrary-precision integer, for an all-ones mask
`m = 2 ^ k - 1`: the low `k` bits of the two's-complement representation,
i.e. `x mod (m + 1)` (non-negative Euclidean mod). -/
def pyAnd (x : Int) (m : Nat) : Nat :=
  (Int.emod x ((m : Int) + 1)).toNat

/-- The byte-unpacking loop of `convert_from_registers` for `DATATYPE.STRING`
(modbus.py lines 80-87): each register yields its high byte then its low byte,
zero bytes being skipped. -/
def stringBytes (registers : List Nat) : List Nat :=
  (registers.map (fun reg =>
    let high_byte := (reg >>> 8) &&& 0xFF
    let low_byte := reg &&& 0xFF
    (if high_byte > 0 then [high_byte] else []) ++
      (if low_byte > 0 then [low_byte] else []))).flatten

/-- Python's `rstrip("\x00")` on a byte string (modbus.py line 88). -/
def rstripNul (s : List Nat) : List Nat :=
  (s.reverse.dropWhile (fun b => b = 0)).reverse

/-- `ModbusClientMixin.convert_from_registers` (modbus.py lines 57-90).
Registers are 16-bit words as delivered by the transport.  An empty register
list returns the integer 0 (line 59-60) whatever the data type. -/
def convert_from_registers (registers : List Nat) (data_type : DataType) : RegValue :=
  match registers with
  | [] => .num 0
  | r0 :: rest =>
    match data_type with
    | .UINT16 => .num ((r0 &&& 0xFFFF : Nat) : Int)
    | .INT16 =>
      let val := r0 &&& 0xFFFF
      .num (if val < 32768 then (val : Int) else (val : Int) - 65536)
    | .UINT32 =>
      match rest with
      | r1 :: _ => .num (((r0 <<< 16) ||| r1 : Nat) : Int)
      | [] => .num r0
    | .INT32 =>
      match rest with
      | r1 :: _ =>
        let val : Nat := (r0 <<< 16) ||| r1
        .num (if val < 2147483648 then (val : Int) else (val : Int) - 4294967296)
      | [] => .num r0
    | .UINT64 =>
      match rest with
      | r1 :: r2 :: r3 :: _ =>
        .num (((r0 <<< 48) ||| (r1 <<< 32) ||| (r2 <<< 16) ||| r3 : Nat) : Int)
      | _ => .num r0
    | .STRING => .str (rstripNul (stringBytes registers))

/-- `BinaryPayloadBuilder.add_16bit_uint` (modbus.py lines 127-128):
appends `int(value) & 0xFFFF`. -/
def add_16bit_uint (value : Int) : List Nat :=
  [pyAnd value 0xFFFF]

/-- `BinaryPayloadBuilder.add_16bit_int` (modbus.py lines 130-134): a negative
value gets `0x10000` added before masking. -/
def add_16bit_int (value : Int) : List Nat :=
  let val := if value < 0 then 0x10000 + value else value
  [pyAnd val 0xFFFF]

/-- `BinaryPayloadBuilder.add_32bit_uint` (modbus.py lines 136-139):
appends the high then the low 16-bit word. -/
def add_32bit_uint (value : Int) : List Nat :=
  [pyAnd (pyShr value 16) 0xFFFF, pyAnd value 0xFFFF]

/-- `BinaryPayloadBuilder.add_32bit_int` (modbus.py lines 141-146): a negative
value gets `0x100000000` added, then high and low words are appended. -/
def add_32bit_int (value : Int) : List Nat :=
  let val := if value < 0 then 0x100000000 + value else value
  [pyAnd (pyShr val 16) 0xFFFF, pyAnd val 0xFFFF]

/-- `BinaryPayloadBuilder.add_64bit_uint` (modbus.py lines 148-153):
appends the four 16-bit words, most significant first. -/
def add_64bit_uint (value : Int) : List Nat :=
  [pyAnd (pyShr value 48) 0xFFFF, pyAnd (pyShr value 32) 0xFFFF,
    pyAnd (pyShr value 16) 0xFFFF, pyAnd value 0xFFFF]

/-- `BinaryPayloadBuilder.add_string` (modbus.py lines 155-162): bytes are
packed two per word, high byte first; a trailing odd byte becomes the high
byte of a final word whose low byte is zero.  The argument is the UTF-8 byte
list of the string (equal to the character list for ASCII strings). -/
def add_string : List Nat → List Nat
  | [] => []
  | [b] => [b <<< 8]
  | b1 :: b2 :: rest => ((b1 <<< 8) ||| b2) :: add_string rest

/-- Result of decoding with the per-register scale applied: a rational number
or a byte string. -/
inductive ScaledValue
  | num (q : ℚ)
  | str (s : List Nat)
deriving DecidableEq

/-- Python's `int()` truncation toward zero, on a rational. -/
def pyInt (q : ℚ) : Int :=
  if 0 ≤ q then ⌊q⌋ else ⌈q⌉

/-- Modelled from the spec: `SigenergyModbusHub._decode_value` is called at
modbus.py line 299 but its definition lies beyond the end of the source
snapshot.  Per spec section 4.1 decoding converts the register words for the
declared encoding and divides the raw integer by the positive scale `gain`
(`decoded_value = raw_integer / scale`); string values are returned as they
are. -/
def decode_value (registers : List Nat) (data_type : DataType) (gain : ℚ) : ScaledValue :=
  match convert_from_registers registers data_type with
  | .num n => .num ((n : ℚ) / gain)
  | .str s => .str s

/-- Errors of the encode path. -/
inductive EncodeError
  | negativeUnsigned
  | stringValue
deriving DecidableEq

/-- Modelled from the spec: `SigenergyModbusHub._encode_value` is not in the
source snapshot.  Per spec section 4.1, encoding a numeric value multiplies by
the scale and truncates to an integer, rejects a negative integer for an
unsigned wire type as a caller error, and bit-packs through the
`BinaryPayloadBuilder` methods (which are in the snapshot and modelled above).
This is the packing step on the already-truncated integer. -/
def encode_int (data_type : DataType) (n : Int) : Except EncodeError (List Nat) :=
  match data_type with
  | .UINT16 => if n < 0 then .error .negativeUnsigned else .ok (add_16bit_uint n)
  | .INT16 => .ok (add_16bit_int n)
  | .UINT32 => if n < 0 then .error .negativeUnsigned else .ok (add_32bit_uint n)
  | .INT32 => .ok (add_32bit_int n)
  | .UINT64 => if n < 0 then .error .negativeUnsigned else .ok (add_64bit_uint n)
  | .STRING => .error .stringValue

/-- Modelled from the spec: numeric encoding with scale — multiply by the
gain, truncate to an integer (Python `int()`), then pack. -/
def encode_value (data_type : DataType) (gain : ℚ) (v : ℚ) : Except EncodeError (List Nat) :=
  encode_int data_type (pyInt (v * gain))

/-- The representable range of each numeric encoding (spec section 8's
representable ranges: unsigned encodings carry `0 ≤ n < 2 ^ width`, signed
encodings carry two's-complement `-2 ^ (width - 1) ≤ n < 2 ^ (width - 1)`). -/
def inRange : DataType → Int → Prop
  | .UINT16, n => 0 ≤ n ∧ n < 65536
  | .INT16, n => -32768 ≤ n ∧ n < 32768
  | .UINT32, n => 0 ≤ n ∧ n < 4294967296
  | .INT32, n => -2147483648 ≤ n ∧ n < 2147483648
  | .UINT64, n => 0 ≤ n ∧ n < 18446744073709551616
  | .STRING, _ => False

/-- Register catalog entry (`ModbusRegisterDefinition`).  The defining module
`modbusregisterdefinitions.py` is not in the source snapshot; the fields are
exactly those modbus.py reads (`address`, `count`, `register_type`,
`data_type`, `gain`, `unit`, and the mutable tri-state `is_supported`), cf.
spec section 3.  `unit` is a character list; `is_supported` is `none` while
support is unknown. -/
structure ModbusRegisterDefinition where
  address : Nat
  count : Nat
  register_type : RegisterType
  data_type : DataType
  gain : ℚ
  unit : Option (List Char)
  is_supported : Option Bool
deriving DecidableEq

/-- Does `needle` occur at the head of `hay`? (helper for Python's substring
containment test `u in unit`). -/
def leadsWith : List Char → List Char → Bool
  | [], _ => true
  | _ :: _, [] => false
  | a :: as, b :: bs => a = b && leadsWith as bs

/-- Python's `needle in hay` substring containment on strings, over character
lists. -/
def containsSub (needle : List Char) : List Char → Bool
  | [] => needle.isEmpty
  | b :: bs => leadsWith needle (b :: bs) || containsSub needle bs

/-- Python's `any(u in unit for u in needles)`. -/
def containsAny (needles : List (List Char)) (hay : List Char) : Bool :=
  needles.any (fun n => containsSub n hay)

/-- Python's `str.lower()` over a character list (ASCII unit strings). -/
def lowerStr (s : List Char) : List Char :=
  s.map Char.toLower

/-- A register read response as `_validate_register_response` sees it:
either an error response (`None` or `isError()`), or a payload of register
words. -/
inductive ProbeResponse
  | failure
  | ok (registers : List Nat)
deriving DecidableEq

/-- `SigenergyModbusHub._validate_register_response` (modbus.py lines 273-333).
An error response or an empty payload is unsupported; a string register is
supported unless every word is zero; a numeric register is decoded and, when a
unit hint is present, checked against the class plausibility bound resolved by
first-match substring tests on the lowercased unit (voltage, current, energy,
power, temperature, percentage, in the source's order); without a unit hint
any value is accepted. -/
def _validate_register_response (result : ProbeResponse)
    (register_def : ModbusRegisterDefinition) : Bool :=
  match result with
  | .failure => false
  | .ok registers =>
    if registers.isEmpty then false
    else if register_def.data_type = .STRING then
      !(registers.all (fun reg => reg = 0))
    else
      match decode_value registers register_def.data_type register_def.gain with
      | .num value =>
        match register_def.unit with
        | some u =>
          let unit := lowerStr u
          if containsAny [['v'], ['v', 'o', 'l', 't']] unit then
            decide (0 ≤ |value| ∧ |value| ≤ 1000)
          else if containsAny [['a'], ['a', 'm', 'p']] unit then
            decide (0 ≤ |value| ∧ |value| ≤ 1000)
          else if containsAny [['w', 'h'], ['k', 'w', 'h']] unit then
            decide (0 ≤ |value| ∧ |value| ≤ 10000000)
          else if containsAny [['w'], ['w', 'a', 't', 't']] unit then
            decide (0 ≤ |value| ∧ |value| ≤ 1000)
          else if containsAny [['c'], ['f'], ['t', 'e', 'm', 'p']] unit then
            decide (-50 ≤ value ∧ value ≤ 200)
          else if containsSub ['%'] unit then
            decide (0 ≤ value ∧ value ≤ 120)
          else
            true
        | none => true
      | .str _ => true

/-- The plausibility classification as the (amended) claim states it, written
from the specification's words: with no unit hint every value is plausible;
with a unit hint, the unit class is resolved by the same first-match substring
rule the code uses on the lowercased unit, and the class bound is applied —
on the MAGNITUDE of the value for voltage, current, energy and power, on the
signed value for temperature (within [-50, 200]) and percentage (within
[0, 120]). -/
def claimBoundCheck (unit : Option (List Char)) (value : ℚ) : Bool :=
  match unit with
  | none => true
  | some u =>
    let lu := lowerStr u
    if containsAny [['v'], ['v', 'o', 'l', 't']] lu then decide (|value| ≤ 1000)
    else if containsAny [['a'], ['a', 'm', 'p']] lu then decide (|value| ≤ 1000)
    else if containsAny [['w', 'h'], ['k', 'w', 'h']] lu then decide (|value| ≤ 10000000)
    else if containsAny [['w'], ['w', 'a', 't', 't']] lu then decide (|value| ≤ 1000)
    else if containsAny [['c'], ['f'], ['t', 'e', 'm', 'p']] lu then
      decide (-50 ≤ value ∧ value ≤ 200)
    else if containsSub ['%'] lu then decide (0 ≤ value ∧ value ≤ 120)
    else true

/-- The kind of Modbus read a probe issues. -/
inductive ReadKind
  | input
  | holding
deriving DecidableEq

/-- `SigenergyModbusHub._probe_single_register` (modbus.py lines 335-372),
with the network modelled explicitly: the first component is the read request
the coroutine issues (`read_input_registers` for `READ_ONLY`,
`read_holding_registers` for `HOLDING`, and no read at all for any other
register type), and the second is the returned triple
`(name, is_supported, exception)` given the device's `response` to that read
(ignored when no read is issued): the validated response for the two readable
classes, and `(name, False, None)` for the unreadable class (lines 358-363). -/
def _probe_single_register (name : Nat) (register : ModbusRegisterDefinition)
    (response : ProbeResponse) :
    Option ReadKind × (Nat × Bool × Option Unit) :=
  match register.register_type with
  | .READ_ONLY =>
    (some .input, (name, _validate_register_response response register, none))
  | .HOLDING =>
    (some .holding, (name, _validate_register_response response register, none))
  | .WRITE_ONLY =>
    (none, (name, false, none))

/-- Outcome of one probe task inside the `asyncio.gather` call: either the
task raised (the exception lands in the results list, since the gather uses
`return_exceptions=True`), or the issued read completed with a response. -/
inductive TaskOutcome
  | exn
  | resp (r : ProbeResponse)

/-- How the surrounding steps of `async_probe_registers` went: task
preparation raised; the gather/await step was cancelled; the gather/await step
raised some other exception; or the gather completed, each task's fate given
by the map from register name to `TaskOutcome`. -/
inductive GatherOutcome
  | prepError
  | cancelled
  | gatherError
  | completed (fate : Nat → TaskOutcome)

/-- How `async_probe_registers` terminates: an ordinary return, or re-raising
`asyncio.CancelledError` (modbus.py line 425). -/
inductive ExitKind
  | normal
  | raisedCancelled
deriving DecidableEq

/-- The register dictionary: an association list from register name to its
definition (Python `Dict[str, ModbusRegisterDefinition]`; keys are unique). -/
abbrev RegisterDefs := List (Nat × ModbusRegisterDefinition)

/-- Assignment `register_defs[name].is_supported = b` on the dictionary. -/
def setSupported (defs : RegisterDefs) (name : Nat) (b : Bool) : RegisterDefs :=
  defs.map (fun p => if p.1 = name then (p.1, { p.2 with is_supported := some b }) else p)

/-- The loops at modbus.py lines 402-404, 422-424 and 430-432: every register
whose support state is still unknown is marked unsupported. -/
def markUnknownUnsupported (defs : RegisterDefs) : RegisterDefs :=
  defs.map (fun p =>
    if p.2.is_supported = none then (p.1, { p.2 with is_supported := some false }) else p)

/-- Dictionary lookup (`register_defs[name]`, or `name in register_defs`). -/
def lookupReg (defs : RegisterDefs) (name : Nat) : Option ModbusRegisterDefinition :=
  (defs.find? (fun p => p.1 = name)).map (fun p => p.2)

/-- State returned by the probe model: the updated register dictionary, the
endpoint's `_connected[key]` flag, and how the call exited. -/
structure ProbeRunResult where
  defs : RegisterDefs
  connected : Bool
  exit : ExitKind
deriving DecidableEq

/-- The result-processing loop of `async_probe_registers` (modbus.py lines
441-461): exceptions in the results list are skipped (the register stays as it
was); a `(name, is_supported, exn)` triple assigns
`register_defs[name].is_supported = is_supported` when the name is a key of
the dictionary (`setSupported` touches nothing otherwise). -/
def processResults (defs : RegisterDefs)
    (results : List (Option (Nat × Bool × Option Unit))) : RegisterDefs :=
  results.foldl (fun acc res =>
    match res with
    | none => acc
    | some (name, b, _) => setSupported acc name b) defs

/-- `SigenergyModbusHub.async_probe_registers` (modbus.py lines 374-461),
over one endpoint's state.  Control flow: build the task list from the
registers whose support is unknown (lines 392-397; a preparation error marks
them all unsupported and returns, lines 398-405); return when there is
nothing to probe (lines 407-409); run the gather (cancellation marks the
unknowns unsupported and re-raises, lines 419-425; another exception marks
them unsupported, flags the connection as bad and returns, lines 426-434);
otherwise process the per-task results. -/
def async_probe_registers (defs : RegisterDefs) (connected : Bool)
    (outcome : GatherOutcome) : ProbeRunResult :=
  match outcome with
  | .prepError => ⟨markUnknownUnsupported defs, connected, .normal⟩
  | .cancelled =>
    if (defs.filter (fun p => p.2.is_supported = none)).isEmpty then ⟨defs, connected, .normal⟩
    else ⟨markUnknownUnsupported defs, connected, .raisedCancelled⟩
  | .gatherError =>
    if (defs.filter (fun p => p.2.is_supported = none)).isEmpty then ⟨defs, connected, .normal⟩
    else ⟨markUnknownUnsupported defs, false, .normal⟩
  | .completed fate =>
    let tasks := defs.filter (fun p => p.2.is_supported = none)
    if tasks.isEmpty then ⟨defs, connected, .normal⟩
    else
      let results := tasks.map (fun p =>
        match fate p.1 with
        | .exn => none
        | .resp r => some (_probe_single_register p.1 p.2 r).2)
      ⟨processResults defs results, connected, .normal⟩

/-- `DEFAULT_READ_ONLY` (const.py line 81): read-only mode is on by default. -/
def DEFAULT_READ_ONLY : Bool := true

/-- `self.read_only = self.plant_connection.get(CONF_READ_ONLY, DEFAULT_READ_ONLY)`
(modbus.py line 196): the configured value, defaulting to `DEFAULT_READ_ONLY`
when the key is absent. -/
def hubReadOnly (configured : Option Bool) : Bool :=
  configured.getD DEFAULT_READ_ONLY

/-- Errors of the write path (spec section 7). -/
inductive WriteError
  | readOnlyMode
  | registerNotWritable
deriving DecidableEq

/-- Outcome of a write call: the result surfaced to the caller, and how many
calls reached the network transport. -/
structure WriteOutcome where
  result : Except WriteError Unit
  transportCalls : Nat

/-- Modelled from the spec: the Parameter Writer (`async_write_parameter` and
its per-device wrappers) lies beyond the end of the source snapshot.  Per spec
sections 4.5 and 7, the global read-only flag short-circuits every write with
a `ReadOnlyModeError` before any I/O occurs; otherwise a read-only register is
rejected as a caller error, and an accepted write issues one transport
write. -/
def write_parameter (read_only : Bool) (register : ModbusRegisterDefinition)
    (_value : ℚ) : WriteOutcome :=
  if read_only then ⟨.error .readOnlyMode, 0⟩
  else if register.register_type = .READ_ONLY then ⟨.error .registerNotWritable, 0⟩
  else ⟨.ok (), 1⟩

/-- Interleaving model of two concurrent calls to
`SigenergyModbusHub._get_client` for the same `(host, port)` key (modbus.py
lines 220-250).  Each caller's program counter tracks the coroutine between
its suspension points:

* 0 — about to run the outer check `key not in self._clients or not
  self._connected.get(key, False)` (line 225); when it fails the caller
  returns `self._clients[key]` at once, otherwise it moves to the lock.
* 1 — suspended on `async with self._locks[key]` (line 229); it proceeds only
  when no one holds the lock.
* 2 — holding the lock, about to run the inner re-check (line 230); when the
  re-check fails the caller skips the body (state 4); otherwise it stores a
  freshly created `AsyncModbusTcpClient` in `self._clients[key]` (lines
  233-238, no suspension between check and store) and awaits the connect.
* 3 — suspended in `await self._clients[key].connect()` (line 241); its
  completion sets `self._connected[key] = True` (line 247, the model's
  connect counter counts these transport connect attempts).
* 4 — leaving the `async with` block: release the lock and return
  `self._clients[key]` (line 250).
* 5 — returned; `res` holds the returned client.

Client instances are numbered by creation order (`nextTag`), so two callers
got the same instance exactly when their results carry the same tag.  The
model is the success path: every connect attempt succeeds. -/
structure AcqState where
  pc1 : Fin 6
  pc2 : Fin 6
  lockHeld : Fin 3
  client : Option (Fin 2)
  connected : Bool
  connectCount : Fin 3
  nextTag : Fin 2
  res1 : Option (Fin 2)
  res2 : Option (Fin 2)
deriving DecidableEq

/-- The given caller's program counter. -/
def AcqState.pc (s : AcqState) (c : Bool) : Fin 6 :=
  if c then s.pc1 else s.pc2

/-- Set the given caller's program counter. -/
def AcqState.setPc (s : AcqState) (c : Bool) (p : Fin 6) : AcqState :=
  if c then { s with pc1 := p } else { s with pc2 := p }

/-- Record the client the given caller returns. -/
def AcqState.setRes (s : AcqState) (c : Bool) (r : Option (Fin 2)) : AcqState :=
  if c then { s with res1 := r } else { s with res2 := r }

/-- One atomic step of caller `c` (`true` for caller 1) in the `_get_client`
interleaving model; a caller whose turn arrives while it is blocked on the
lock, or after it returned, does nothing. -/
def acqStep (s : AcqState) (c : Bool) : AcqState :=
  let me : Fin 3 := if c then 1 else 2
  if s.pc c = 0 then
    if s.client.isSome && s.connected then (s.setPc c 5).setRes c s.client
    else s.setPc c 1
  else if s.pc c = 1 then
    if s.lockHeld = 0 then { s with lockHeld := me }.setPc c 2 else s
  else if s.pc c = 2 then
    if s.client.isSome && s.connected then s.setPc c 4
    else ({ s with client := some s.nextTag, nextTag := s.nextTag + 1 }).setPc c 3
  else if s.pc c = 3 then
    ({ s with connected := true, connectCount := s.connectCount + 1 }).setPc c 4
  else if s.pc c = 4 then
    (({ s with lockHeld := 0 }).setPc c 5).setRes c s.client
  else s

/-- Both callers start at the outer check over an endpoint with no client, no
connection, a free lock and no connect attempt yet. -/
def acqInit : AcqState :=
  ⟨0, 0, 0, none, false, 0, 0, none, none⟩

/-- Run the interleaving model under a schedule (the list of whose turn it is
at each step). -/
def acqRun (sched : List Bool) : AcqState :=
  sched.foldl acqStep acqInit

/-- The lock-relevant core of an `AcqState`: every field except the two
result registers (whose correctness is proved separately, so that the
exhaustive invariant check ranges over a smaller state space). -/
structure AcqCore where
  pc1 : Fin 6
  pc2 : Fin 6
  lockHeld : Fin 3
  client : Option (Fin 2)
  connected : Bool
  connectCount : Fin 3
  nextTag : Fin 2
deriving DecidableEq

/-- Project an interleaving state to its core. -/
def AcqState.core (s : AcqState) : AcqCore :=
  ⟨s.pc1, s.pc2, s.lockHeld, s.client, s.connected, s.connectCount, s.nextTag⟩

/-- The given caller's program counter, on the core. -/
def AcqCore.pc (t : AcqCore) (c : Bool) : Fin 6 :=
  if c then t.pc1 else t.pc2

/-- Set the given caller's program counter, on the core. -/
def AcqCore.setPc (t : AcqCore) (c : Bool) (p : Fin 6) : AcqCore :=
  if c then { t with pc1 := p } else { t with pc2 := p }

/-- The action of `acqStep` on the core fields; the result registers never
influence it. -/
def coreStep (t : AcqCore) (c : Bool) : AcqCore :=
  let me : Fin 3 := if c then 1 else 2
  if t.pc c = 0 then
    if t.client.isSome && t.connected then t.setPc c 5
    else t.setPc c 1
  else if t.pc c = 1 then
    if t.lockHeld = 0 then { t with lockHeld := me }.setPc c 2 else t
  else if t.pc c = 2 then
    if t.client.isSome && t.connected then t.setPc c 4
    else ({ t with client := some t.nextTag, nextTag := t.nextTag + 1 }).setPc c 3
  else if t.pc c = 3 then
    ({ t with connected := true, connectCount := t.connectCount + 1 }).setPc c 4
  else if t.pc c = 4 then
    ({ t with lockHeld := 0 }).setPc c 5
  else t

/-- Inductive invariant of the `_get_client` interleaving model, on the core:
the connect counter mirrors the connected flag, at most one client is ever
created (tag 0), the lock is held by caller `i` exactly while it is between
the inner check and the release, a caller awaiting connect has stored the
client and the flag is still down, a caller about to release has a connected
client, a returned caller saw a live connection, a connection implies a
stored client, and a stored-but-unconnected client belongs to a caller
currently awaiting connect. -/
def AcqInvCore (t : AcqCore) : Prop :=
  t.connectCount = (if t.connected then 1 else 0) ∧
  t.nextTag = (if t.client.isSome then 1 else 0) ∧
  t.client ≠ some 1 ∧
  (t.lockHeld = 1 ↔ (t.pc1 = 2 ∨ t.pc1 = 3 ∨ t.pc1 = 4)) ∧
  (t.lockHeld = 2 ↔ (t.pc2 = 2 ∨ t.pc2 = 3 ∨ t.pc2 = 4)) ∧
  (t.pc1 = 3 → t.client.isSome ∧ t.connected = false) ∧
  (t.pc2 = 3 → t.client.isSome ∧ t.connected = false) ∧
  (t.pc1 = 4 → t.client.isSome ∧ t.connected = true) ∧
  (t.pc2 = 4 → t.client.isSome ∧ t.connected = true) ∧
  (t.pc1 = 5 → t.connected = true) ∧
  (t.pc2 = 5 → t.connected = true) ∧
  (t.connected = true → t.client.isSome) ∧
  (t.client.isSome ∧ t.connected = false → t.pc1 = 3 ∨ t.pc2 = 3)

instance (t : AcqCore) : Decidable (AcqInvCore t) := by
  unfold AcqInvCore; infer_instance

/-- The result registers recorded so far are correct: a caller that has
returned holds client 0 (the single client ever created). -/
def AcqResOK (s : AcqState) : Prop :=
  (s.pc1 = 5 → s.res1 = some 0) ∧ (s.pc2 = 5 → s.res2 = some 0)


theorem lor_of_lt (a b k : Nat) (h : b < 2^k) : a <<< k ||| b = a * 2^k + b := by
  rw [Nat.shiftLeft_eq]
  apply Nat.eq_of_testBit_eq
  intro i
  rw [Nat.testBit_lor, Nat.mul_comm a, Nat.testBit_mul_pow_two_add a h i,
    Nat.testBit_mul_pow_two]
  by_cases hi : i < k
  · simp [hi, Nat.not_le_of_lt hi]
  · simp [hi, Nat.le_of_not_lt hi,
      Nat.testBit_lt_two_pow (Nat.lt_of_lt_of_le h (Nat.pow_le_pow_right (by norm_num) (Nat.le_of_not_lt hi)))]

theorem and_mask16 (r : Nat) : r &&& 0xFFFF = r % 65536 := by
  have h : (0xFFFF : Nat) = 2^16 - 1 := by norm_num
  rw [h, Nat.and_pow_two_sub_one_eq_mod, show (2:Nat)^16 = 65536 by norm_num]

theorem pyAnd_natCast16 (m : Nat) : pyAnd (m : Int) 0xFFFF = m % 65536 := by
  unfold pyAnd
  rw [show ((0xFFFF : Nat) : Int) + 1 = ((65536 : Nat) : Int) by norm_num,
    show Int.emod (m : Int) ((65536 : Nat) : Int) = ((m % 65536 : Nat) : Int) from rfl,
    Int.toNat_natCast]

theorem pyShr_natCast (m k : Nat) : pyShr (m : Int) k = ((m / 2^k : Nat) : Int) := by
  unfold pyShr
  rw [Int.fdiv_eq_ediv _ (by positivity),
    show ((2:Int)^k) = (((2^k : Nat)) : Int) by push_cast; ring]
  exact rfl

theorem roundtrip_u16 (n : Int) (h0 : 0 ≤ n) (h1 : n < 65536) :
    convert_from_registers (add_16bit_uint n) .UINT16 = .num n := by
  obtain ⟨m, rfl⟩ := Int.eq_ofNat_of_zero_le h0
  have hm : m < 65536 := by exact_mod_cast h1
  have hw : add_16bit_uint (m : Int) = [m] := by
    simp only [add_16bit_uint, pyAnd_natCast16, Nat.mod_eq_of_lt hm]
  rw [hw]
  simp only [convert_from_registers, and_mask16, Nat.mod_eq_of_lt hm]

theorem roundtrip_s16 (n : Int) (h0 : -32768 ≤ n) (h1 : n < 32768) :
    convert_from_registers (add_16bit_int n) .INT16 = .num n := by
  by_cases hneg : n < 0
  · obtain ⟨m, hm⟩ : ∃ m : Nat, (0x10000 : Int) + n = (m : Int) :=
      Int.eq_ofNat_of_zero_le (by omega)
    have hm1 : 32768 ≤ m := by omega
    have hm2 : m < 65536 := by omega
    have hw : add_16bit_int n = [m] := by
      simp only [add_16bit_int, if_pos hneg, hm, pyAnd_natCast16, Nat.mod_eq_of_lt hm2]
    rw [hw]
    simp only [convert_from_registers, and_mask16, Nat.mod_eq_of_lt hm2]
    rw [if_neg (by omega)]
    simp only [RegValue.num.injEq]
    omega
  · obtain ⟨m, rfl⟩ := Int.eq_ofNat_of_zero_le (by omega : (0:Int) ≤ n)
    have hm : m < 32768 := by exact_mod_cast h1
    have hw : add_16bit_int (m : Int) = [m] := by
      simp only [add_16bit_int, if_neg hneg, pyAnd_natCast16, Nat.mod_eq_of_lt (by omega : m < 65536)]
    rw [hw]
    simp only [convert_from_registers, and_mask16, Nat.mod_eq_of_lt (by omega : m < 65536)]
    rw [if_pos (by omega)]

theorem decode_u32_words (a b : Nat) (hb : b < 65536) :
    convert_from_registers [a, b] .UINT32 = .num ((a * 65536 + b : Nat) : Int) := by
  simp only [convert_from_registers]
  rw [lor_of_lt a b 16 (by norm_num [hb]), show (2:Nat)^16 = 65536 by norm_num]

theorem add32u_words (m : Nat) (hm : m < 4294967296) :
    add_32bit_uint (m : Int) = [m / 65536, m % 65536] := by
  simp only [add_32bit_uint, pyShr_natCast, pyAnd_natCast16,
    show (2:Nat)^16 = 65536 by norm_num]
  rw [Nat.mod_eq_of_lt (by omega : m / 65536 < 65536)]

theorem roundtrip_u32 (n : Int) (h0 : 0 ≤ n) (h1 : n < 4294967296) :
    convert_from_registers (add_32bit_uint n) .UINT32 = .num n := by
  obtain ⟨m, rfl⟩ := Int.eq_ofNat_of_zero_le h0
  have hm : m < 4294967296 := by exact_mod_cast h1
  rw [add32u_words m hm, decode_u32_words _ _ (by omega)]
  congr 1
  omega

theorem decode_s32_words (a b : Nat) (hb : b < 65536) :
    convert_from_registers [a, b] .INT32 =
      .num (if a * 65536 + b < 2147483648 then ((a * 65536 + b : Nat) : Int)
        else ((a * 65536 + b : Nat) : Int) - 4294967296) := by
  simp only [convert_from_registers]
  rw [lor_of_lt a b 16 (by norm_num [hb]), show (2:Nat)^16 = 65536 by norm_num]

theorem add32s_words (n : Int) (h0 : -2147483648 ≤ n) (h1 : n < 0) :
    add_32bit_int n = [(0x100000000 + n).toNat / 65536, (0x100000000 + n).toNat % 65536] := by
  obtain ⟨m, hm⟩ : ∃ m : Nat, (0x100000000 : Int) + n = (m : Int) :=
    Int.eq_ofNat_of_zero_le (by omega)
  have hm2 : m < 4294967296 := by omega
  simp only [add_32bit_int, if_pos h1, hm, pyShr_natCast, pyAnd_natCast16,
    show (2:Nat)^16 = 65536 by norm_num, Int.toNat_natCast]
  rw [Nat.mod_eq_of_lt (by omega : m / 65536 < 65536)]

theorem roundtrip_s32 (n : Int) (h0 : -2147483648 ≤ n) (h1 : n < 2147483648) :
    convert_from_registers (add_32bit_int n) .INT32 = .num n := by
  by_cases hneg : n < 0
  · obtain ⟨m, hm⟩ : ∃ m : Nat, (0x100000000 : Int) + n = (m : Int) :=
      Int.eq_ofNat_of_zero_le (by omega)
    have hm1 : 2147483648 ≤ m := by omega
    have hm2 : m < 4294967296 := by omega
    rw [add32s_words n h0 hneg, hm, Int.toNat_natCast,
      decode_s32_words _ _ (by omega)]
    have he : m / 65536 * 65536 + m % 65536 = m := by omega
    rw [he, if_neg (by omega)]
    simp only [RegValue.num.injEq]
    omega
  · obtain ⟨m, rfl⟩ := Int.eq_ofNat_of_zero_le (by omega : (0:Int) ≤ n)
    have hm : m < 2147483648 := by exact_mod_cast h1
    have hw : add_32bit_int (m : Int) = [m / 65536, m % 65536] := by
      simp only [add_32bit_int, if_neg hneg, pyShr_natCast, pyAnd_natCast16,
        show (2:Nat)^16 = 65536 by norm_num]
      rw [Nat.mod_eq_of_lt (by omega : m / 65536 < 65536)]
    rw [hw, decode_s32_words _ _ (by omega)]
    have he : m / 65536 * 65536 + m % 65536 = m := by omega
    rw [he, if_pos (by omega)]

theorem decode_u64_words (a b c d : Nat) (hb : b < 65536) (hc : c < 65536) (hd : d < 65536) :
    convert_from_registers [a, b, c, d] .UINT64 =
      .num ((a * 281474976710656 + b * 4294967296 + c * 65536 + d : Nat) : Int) := by
  simp only [convert_from_registers]
  rw [Nat.lor_assoc, Nat.lor_assoc, lor_of_lt c d 16 (by omega),
    lor_of_lt b (c * 2^16 + d) 32 (by omega),
    lor_of_lt a (b * 2^32 + (c * 2^16 + d)) 48 (by omega)]
  simp only [RegValue.num.injEq, Nat.cast_inj]
  omega

theorem add64u_words (m : Nat) (hm : m < 18446744073709551616) :
    add_64bit_uint (m : Int) =
      [m / 281474976710656, m / 4294967296 % 65536, m / 65536 % 65536, m % 65536] := by
  simp only [add_64bit_uint, pyShr_natCast, pyAnd_natCast16,
    show (2:Nat)^16 = 65536 by norm_num, show (2:Nat)^32 = 4294967296 by norm_num,
    show (2:Nat)^48 = 281474976710656 by norm_num]
  rw [Nat.mod_eq_of_lt (by omega : m / 281474976710656 < 65536)]

theorem roundtrip_u64 (n : Int) (h0 : 0 ≤ n) (h1 : n < 18446744073709551616) :
    convert_from_registers (add_64bit_uint n) .UINT64 = .num n := by
  obtain ⟨m, rfl⟩ := Int.eq_ofNat_of_zero_le h0
  have hm : m < 18446744073709551616 := by exact_mod_cast h1
  rw [add64u_words m hm,
    decode_u64_words _ _ _ _ (by omega) (by omega) (by omega)]
  simp only [RegValue.num.injEq, Nat.cast_inj]
  omega

theorem and_mask8 (r : Nat) : r &&& 0xFF = r % 256 := by
  have h : (0xFF : Nat) = 2^8 - 1 := by norm_num
  rw [h, Nat.and_pow_two_sub_one_eq_mod, show (2:Nat)^8 = 256 by norm_num]

theorem stringBytes_cons (w : Nat) (ws : List Nat) :
    stringBytes (w :: ws) =
      ((if (w >>> 8) &&& 0xFF > 0 then [(w >>> 8) &&& 0xFF] else []) ++
        (if w &&& 0xFF > 0 then [w &&& 0xFF] else [])) ++ stringBytes ws := by
  simp [stringBytes]

theorem stringBytes_add_string :
    ∀ s : List Nat, (∀ b ∈ s, 0 < b ∧ b < 256) → stringBytes (add_string s) = s
  | [], _ => rfl
  | [b], h => by
    obtain ⟨hb0, hb1⟩ := h b (by simp)
    have hhi : (b <<< 8) >>> 8 &&& 0xFF = b := by
      rw [Nat.shiftLeft_eq, Nat.shiftRight_eq_div_pow,
        Nat.mul_div_cancel _ (by norm_num : (0:Nat) < 2^8), and_mask8,
        Nat.mod_eq_of_lt hb1]
    have hlo : (b <<< 8) &&& 0xFF = 0 := by
      rw [Nat.shiftLeft_eq, and_mask8, show (2:Nat)^8 = 256 by norm_num,
        Nat.mul_mod_left]
    simp only [add_string, stringBytes_cons, hhi, hlo, if_pos hb0]
    simp [stringBytes]
  | b1 :: b2 :: rest, h => by
    obtain ⟨h10, h11⟩ := h b1 (by simp)
    obtain ⟨h20, h21⟩ := h b2 (by simp)
    have hword : (b1 <<< 8) ||| b2 = b1 * 256 + b2 := by
      rw [lor_of_lt b1 b2 8 (by omega), show (2:Nat)^8 = 256 by norm_num]
    have hhi : (b1 * 256 + b2) >>> 8 &&& 0xFF = b1 := by
      rw [Nat.shiftRight_eq_div_pow, show (2:Nat)^8 = 256 by norm_num, and_mask8]
      omega
    have hlo : (b1 * 256 + b2) &&& 0xFF = b2 := by
      rw [and_mask8]
      omega
    have ih := stringBytes_add_string rest (fun b hb => h b (by simp [hb]))
    simp only [add_string, stringBytes_cons, hword, hhi, hlo, if_pos h10, if_pos h20, ih]
    simp

theorem rstripNul_of_no_nul (s : List Nat) (hb : ∀ b ∈ s, 0 < b) : rstripNul s = s := by
  unfold rstripNul
  cases hrev : s.reverse with
  | nil => simp [List.reverse_eq_nil_iff.mp hrev]
  | cons x t =>
    have hx : 0 < x := hb x (by
      have hm : x ∈ s.reverse := by rw [hrev]; exact List.mem_cons_self x t
      simpa using hm)
    rw [List.dropWhile_cons_of_neg (by simp; omega), ← hrev, List.reverse_reverse]

theorem roundtrip_string (s : List Nat) (hs : s ≠ []) (hb : ∀ b ∈ s, 0 < b ∧ b < 256) :
    convert_from_registers (add_string s) .STRING = .str s := by
  obtain ⟨w, ws, hw⟩ : ∃ w ws, add_string s = w :: ws := by
    match s, hs with
    | [b], _ => exact ⟨_, _, rfl⟩
    | b1 :: b2 :: rest, _ => exact ⟨_, _, rfl⟩
  rw [hw]
  simp only [convert_from_registers]
  rw [← hw, stringBytes_add_string s hb, rstripNul_of_no_nul s (fun b h => (hb b h).1)]

theorem pyInt_close (x : ℚ) : |(pyInt x : ℚ) - x| < 1 := by
  unfold pyInt
  by_cases h : 0 ≤ x
  · rw [if_pos h, abs_lt]
    constructor
    · have := Int.lt_floor_add_one x
      push_cast at this ⊢
      linarith
    · have := Int.floor_le x
      linarith
  · rw [if_neg h, abs_lt]
    constructor
    · have := Int.le_ceil x
      linarith
    · have := Int.ceil_lt_add_one x
      push_cast at this ⊢
      linarith

theorem encode_convert (dt : DataType) (hdt : dt ≠ .STRING) (n : Int) (hr : inRange dt n) :
    ∃ regs, encode_int dt n = .ok regs ∧ convert_from_registers regs dt = .num n := by
  cases dt with
  | UINT16 =>
    exact ⟨_, by simp [encode_int, not_lt.mpr hr.1], roundtrip_u16 n hr.1 hr.2⟩
  | INT16 =>
    exact ⟨_, rfl, roundtrip_s16 n hr.1 hr.2⟩
  | UINT32 =>
    exact ⟨_, by simp [encode_int, not_lt.mpr hr.1], roundtrip_u32 n hr.1 hr.2⟩
  | INT32 =>
    exact ⟨_, rfl, roundtrip_s32 n hr.1 hr.2⟩
  | UINT64 =>
    exact ⟨_, by simp [encode_int, not_lt.mpr hr.1], roundtrip_u64 n hr.1 hr.2⟩
  | STRING => exact absurd rfl hdt

theorem roundtrip_numeric (dt : DataType) (hdt : dt ≠ .STRING) (g v : ℚ) (hg : 0 < g)
    (hr : inRange dt (pyInt (v * g))) :
    ∃ regs q, encode_value dt g v = .ok regs ∧ decode_value regs dt g = .num q ∧
      |q - v| < 1 / g := by
  obtain ⟨regs, henc, hdec⟩ := encode_convert dt hdt (pyInt (v * g)) hr
  refine ⟨regs, ((pyInt (v * g) : Int) : ℚ) / g, henc, ?_, ?_⟩
  · simp [decode_value, hdec]
  · have hclose := pyInt_close (v * g)
    have h1 : ((pyInt (v * g) : Int) : ℚ) / g - v = ((pyInt (v * g) : Int) - v * g) / g := by
      field_simp
      ring
    rw [h1, abs_div, abs_of_pos hg]
    exact div_lt_div_of_pos_right hclose hg


/-- Claim C1 (corrected): codec round-trip.  For every numeric encoding, any
positive scale and any value whose scaled truncation lies in the encoding's
representable range, encoding and then decoding returns the value to within
the rounding tolerance `1 / scale`; and for every NON-EMPTY NUL-free ASCII
byte string, packing and unpacking returns the same string.  (The empty
string is excluded: its encoding is the empty word sequence, which the
decoder's empty-payload guard turns into the integer 0, not a string.) -/
theorem claim_C1_codec_round_trip :
    (∀ (dt : DataType) (g v : ℚ), dt ≠ .STRING → 0 < g →
      inRange dt (pyInt (v * g)) →
      ∃ regs q, encode_value dt g v = .ok regs ∧ decode_value regs dt g = .num q ∧
        |q - v| < 1 / g) ∧
    (∀ s : List Nat, s ≠ [] → (∀ b ∈ s, 0 < b ∧ b < 256) →
      convert_from_registers (add_string s) .STRING = .str s) :=
  ⟨fun dt g v hdt hg hr => roundtrip_numeric dt hdt g v hg hr, roundtrip_string⟩

/-- Claim C1, counterexample to the claim as stated: the empty string is a
NUL-free ASCII string, yet encoding it yields no words and decoding the empty
word sequence returns the integer 0, not the empty string. -/
theorem claim_C1_empty_string_counterexample :
    add_string [] = [] ∧
    convert_from_registers (add_string []) .STRING = .num 0 ∧
    convert_from_registers (add_string []) .STRING ≠ .str [] :=
  ⟨rfl, rfl, by decide⟩

/-- Claim C1, witness: the amended round-trip applied at the spec's own
example (U16, scale 10, value 65.5, raw 655) and at the two-byte string
"AB". -/
theorem claim_C1_codec_round_trip_witness :
    (∃ regs q, encode_value .UINT16 10 (131 / 2) = .ok regs ∧
      decode_value regs .UINT16 10 = .num q ∧ |q - 131 / 2| < 1 / 10) ∧
    convert_from_registers (add_string [65, 66]) .STRING = .str [65, 66] :=
  ⟨claim_C1_codec_round_trip.1 .UINT16 10 (131 / 2) (by decide) (by norm_num)
      (by norm_num [pyInt, inRange]),
    claim_C1_codec_round_trip.2 [65, 66] (by decide) (by decide)⟩

/-- Claim C2 (confirmed): decoding a two-word payload with the U32 encoding
returns `(w0 <<< 16) ||| w1`, which for 16-bit words is the big-endian
composition `w0 * 2 ^ 16 + w1`; decoding with the S32 encoding returns the
same raw 32-bit quantity read as two's complement: the raw value minus
`2 ^ 32` whenever the raw value is at least `2 ^ 31`. -/
theorem claim_C2_decode_32bit (w0 w1 : Nat) (h1 : w1 < 65536) :
    convert_from_registers [w0, w1] .UINT32 = .num (((w0 <<< 16) ||| w1 : Nat) : Int) ∧
    ((w0 <<< 16) ||| w1 : Nat) = w0 * 65536 + w1 ∧
    convert_from_registers [w0, w1] .INT32 =
      .num (if 2147483648 ≤ ((w0 <<< 16) ||| w1 : Nat) then
          (((w0 <<< 16) ||| w1 : Nat) : Int) - 4294967296
        else (((w0 <<< 16) ||| w1 : Nat) : Int)) := by
  have hcomp : ((w0 <<< 16) ||| w1 : Nat) = w0 * 65536 + w1 := by
    rw [lor_of_lt w0 w1 16 (by omega), show (2:Nat)^16 = 65536 by norm_num]
  refine ⟨by simp only [convert_from_registers], hcomp, ?_⟩
  simp only [convert_from_registers]
  by_cases hlt : ((w0 <<< 16) ||| w1 : Nat) < 2147483648
  · rw [if_pos hlt, if_neg (by omega)]
  · rw [if_neg hlt, if_pos (by omega)]

/-- Claim C2, witness: the theorem applied at the words `[0x8000, 0]`, whose
U32 reading is `2 ^ 31` and whose S32 reading is `-2 ^ 31`. -/
theorem claim_C2_decode_32bit_witness :
    convert_from_registers [32768, 0] .UINT32 = .num (((32768 <<< 16) ||| 0 : Nat) : Int) ∧
    ((32768 <<< 16) ||| 0 : Nat) = 32768 * 65536 + 0 ∧
    convert_from_registers [32768, 0] .INT32 =
      .num (if 2147483648 ≤ ((32768 <<< 16) ||| 0 : Nat) then
          (((32768 <<< 16) ||| 0 : Nat) : Int) - 4294967296
        else (((32768 <<< 16) ||| 0 : Nat) : Int)) :=
  claim_C2_decode_32bit 32768 0 (by decide)

/-- Claim C8 (confirmed): encoding a negative value with an unsigned wire
type (U16, U32, U64) is rejected as a caller error, while the signed wire
types bias-add their modulus before packing: the S16 packing of a negative
`n` is the U16 packing of `n + 2 ^ 16`, and the S32 packing of a negative `n`
is the U32 packing of `n + 2 ^ 32`, so the packed words carry the
two's-complement representation. -/
theorem claim_C8_negative_encode (n : Int) (hneg : n < 0) :
    encode_int .UINT16 n = .error .negativeUnsigned ∧
    encode_int .UINT32 n = .error .negativeUnsigned ∧
    encode_int .UINT64 n = .error .negativeUnsigned ∧
    encode_int .INT16 n = .ok (add_16bit_uint (n + 65536)) ∧
    encode_int .INT32 n = .ok (add_32bit_uint (n + 4294967296)) := by
  refine ⟨by simp [encode_int, hneg], by simp [encode_int, hneg],
    by simp [encode_int, hneg], ?_, ?_⟩
  · simp only [encode_int, add_16bit_int, if_pos hneg, add_16bit_uint]
    rw [show (0x10000 : Int) + n = n + 65536 by ring]
  · simp only [encode_int, add_32bit_int, if_pos hneg, add_32bit_uint]
    rw [show (0x100000000 : Int) + n = n + 4294967296 by ring]

/-- Claim C8, witness: the theorem applied at `n = -5`; in particular the S16
packing of `-5` is the single word `0xFFFB`. -/
theorem claim_C8_negative_encode_witness :
    (encode_int .UINT16 (-5) = .error .negativeUnsigned ∧
      encode_int .UINT32 (-5) = .error .negativeUnsigned ∧
      encode_int .UINT64 (-5) = .error .negativeUnsigned ∧
      encode_int .INT16 (-5) = .ok (add_16bit_uint (-5 + 65536)) ∧
      encode_int .INT32 (-5) = .ok (add_32bit_uint (-5 + 4294967296))) ∧
    encode_int .INT16 (-5) = .ok [65531] :=
  ⟨claim_C8_negative_encode (-5) (by decide), by rfl⟩

theorem lookupReg_cons (p : Nat × ModbusRegisterDefinition) (t : RegisterDefs) (m : Nat) :
    lookupReg (p :: t) m = if p.1 = m then some p.2 else lookupReg t m := by
  by_cases hp : p.1 = m
  · rw [lookupReg, List.find?_cons_of_pos _ (by simp [hp]), if_pos hp]
    rfl
  · rw [lookupReg, List.find?_cons_of_neg _ (by simp [hp]), if_neg hp]
    rfl

theorem setSupported_cons (p : Nat × ModbusRegisterDefinition) (t : RegisterDefs)
    (n : Nat) (b : Bool) :
    setSupported (p :: t) n b =
      (if p.1 = n then (p.1, { p.2 with is_supported := some b }) else p) :: setSupported t n b := by
  simp [setSupported]

theorem markUnknownUnsupported_cons (p : Nat × ModbusRegisterDefinition) (t : RegisterDefs) :
    markUnknownUnsupported (p :: t) =
      (if p.2.is_supported = none then (p.1, { p.2 with is_supported := some false }) else p)
        :: markUnknownUnsupported t := by
  simp [markUnknownUnsupported]

theorem lookupReg_setSupported_ne (defs : RegisterDefs) (n : Nat) (b : Bool) (m : Nat)
    (h : m ≠ n) : lookupReg (setSupported defs n b) m = lookupReg defs m := by
  induction defs with
  | nil => rfl
  | cons p t ih =>
    rw [setSupported_cons, lookupReg_cons, lookupReg_cons]
    by_cases hpn : p.1 = n
    · have hpm : ¬(p.1 = m) := by omega
      rw [if_pos hpn]
      simp only [if_neg hpm]
      exact ih
    · rw [if_neg hpn]
      by_cases hpm : p.1 = m
      · rw [if_pos hpm, if_pos hpm]
      · rw [if_neg hpm, if_neg hpm]
        exact ih

theorem lookupReg_markUnknownUnsupported (defs : RegisterDefs) (m : Nat) :
    lookupReg (markUnknownUnsupported defs) m =
      (lookupReg defs m).map (fun rd =>
        if rd.is_supported = none then { rd with is_supported := some false } else rd) := by
  induction defs with
  | nil => rfl
  | cons p t ih =>
    rw [markUnknownUnsupported_cons, lookupReg_cons, lookupReg_cons]
    by_cases hu : p.2.is_supported = none
    · rw [if_pos hu]
      by_cases hpm : p.1 = m
      · simp [hpm, hu]
      · simp only [hpm, if_false, if_neg hpm]
        exact ih
    · rw [if_neg hu]
      by_cases hpm : p.1 = m
      · simp [hpm, hu]
      · simp only [if_neg hpm]
        exact ih

theorem lookupReg_processResults_ne (results : List (Option (Nat × Bool × Option Unit)))
    (m : Nat) (h : ∀ r ∈ results, ∀ x, r = some x → x.1 ≠ m) :
    ∀ defs : RegisterDefs, lookupReg (processResults defs results) m = lookupReg defs m := by
  induction results with
  | nil => intro defs; rfl
  | cons r rs ih =>
    intro defs
    match r with
    | none =>
      have := ih (fun r hr x hx => h r (by simp [hr]) x hx) defs
      simpa [processResults] using this
    | some x =>
      have hx : x.1 ≠ m := h (some x) (by simp) x rfl
      have h2 := ih (fun r hr y hy => h r (by simp [hr]) y hy) (setSupported defs x.1 x.2.1)
      simp only [processResults, List.foldl_cons] at *
      rw [h2, lookupReg_setSupported_ne _ _ _ _ (fun he => hx he.symm)]

theorem lookupReg_eq_of_mem_nodup (defs : RegisterDefs)
    (hnd : (defs.map Prod.fst).Nodup) (p : Nat × ModbusRegisterDefinition) (hp : p ∈ defs) :
    lookupReg defs p.1 = some p.2 := by
  induction defs with
  | nil => cases hp
  | cons q t ih =>
    rw [lookupReg_cons]
    rcases List.mem_cons.mp hp with hq | ht
    · subst hq
      rw [if_pos rfl]
    · have hq1 : ¬(q.1 = p.1) := by
        intro he
        have hmem : p.1 ∈ t.map Prod.fst := List.mem_map_of_mem Prod.fst ht
        rw [List.map_cons, List.nodup_cons] at hnd
        exact hnd.1 (he ▸ hmem)
      rw [if_neg hq1]
      exact ih (by rw [List.map_cons, List.nodup_cons] at hnd; exact hnd.2) ht

theorem probe_result_name (name : Nat) (rd : ModbusRegisterDefinition) (resp : ProbeResponse) :
    (_probe_single_register name rd resp).2.1 = name := by
  cases h : rd.register_type <;> simp [_probe_single_register, h]

/-- Claim C4 (confirmed): probing never touches a register whose support
state is already decided.  Whatever the batch outcome, a register whose
`is_supported` is `some b` when `async_probe_registers` starts still maps to
the identical definition when it ends: only `Unknown` registers are ever
assigned, so the only transitions are Unknown-to-Supported and
Unknown-to-Unsupported. -/
theorem claim_C4_support_monotone (defs : RegisterDefs) (connected : Bool)
    (outcome : GatherOutcome) (hnd : (defs.map Prod.fst).Nodup)
    (m : Nat) (rd : ModbusRegisterDefinition) (b : Bool)
    (hm : lookupReg defs m = some rd) (hb : rd.is_supported = some b) :
    lookupReg (async_probe_registers defs connected outcome).defs m = some rd := by
  have hmark : lookupReg (markUnknownUnsupported defs) m = some rd := by
    rw [lookupReg_markUnknownUnsupported, hm]
    simp [hb]
  cases outcome with
  | prepError => simpa [async_probe_registers] using hmark
  | cancelled =>
    simp only [async_probe_registers]
    cases he : (List.filter (fun p => decide (p.2.is_supported = none)) defs).isEmpty with
    | true => simpa [he] using hm
    | false => simpa [he] using hmark
  | gatherError =>
    simp only [async_probe_registers]
    cases he : (List.filter (fun p => decide (p.2.is_supported = none)) defs).isEmpty with
    | true => simpa [he] using hm
    | false => simpa [he] using hmark
  | completed fate =>
    simp only [async_probe_registers]
    cases he : (List.filter (fun p => decide (p.2.is_supported = none)) defs).isEmpty with
    | true => simpa [he] using hm
    | false =>
      simp only [he, Bool.false_eq_true, if_false]
      rw [lookupReg_processResults_ne _ m ?_ defs]
      · exact hm
      · intro r hr x hx
        subst hx
        obtain ⟨p, hp, hpr⟩ := List.mem_map.mp hr
        obtain ⟨hpd, hpu⟩ := List.mem_filter.mp hp
        cases hf : fate p.1 with
        | exn => rw [hf] at hpr; cases hpr
        | resp resp =>
          rw [hf] at hpr
          have hx1 : x.1 = p.1 := by
            have := congrArg (fun o => o.map Prod.fst) hpr
            simpa [probe_result_name] using this.symm
          rw [hx1]
          intro hpm
          have hl : lookupReg defs p.1 = some p.2 := lookupReg_eq_of_mem_nodup defs hnd p hpd
          rw [hpm] at hl
          rw [hl] at hm
          cases hm
          rw [hb] at hpu
          cases hpu

/-- Claim C4, witness: a register already marked Supported is untouched by a
probe run that gets cancelled. -/
theorem claim_C4_support_monotone_witness :
    lookupReg (async_probe_registers
        [(0, ⟨30010, 1, .READ_ONLY, .UINT16, 1, none, some true⟩)] true .cancelled).defs 0 =
      some ⟨30010, 1, .READ_ONLY, .UINT16, 1, none, some true⟩ :=
  claim_C4_support_monotone [(0, ⟨30010, 1, .READ_ONLY, .UINT16, 1, none, some true⟩)]
    true .cancelled (by simp) 0 ⟨30010, 1, .READ_ONLY, .UINT16, 1, none, some true⟩ true rfl rfl

/-- Claim C5 (corrected, amended part): when the probe batch is cancelled in
flight, the cancellation is re-raised to the caller, the connection flag is
left alone, and every register that was still Unknown is marked UNSUPPORTED
(`is_supported = some false`) — not left Unknown as the claim stated. -/
theorem claim_C5_cancel_marks_unsupported (defs : RegisterDefs) (connected : Bool)
    (hne : (defs.filter (fun p => p.2.is_supported = none)).isEmpty = false) :
    (async_probe_registers defs connected .cancelled).exit = .raisedCancelled ∧
    (async_probe_registers defs connected .cancelled).connected = connected ∧
    ∀ m, lookupReg (async_probe_registers defs connected .cancelled).defs m =
      (lookupReg defs m).map (fun rd =>
        if rd.is_supported = none then { rd with is_supported := some false } else rd) := by
  simp only [async_probe_registers, hne, Bool.false_eq_true, if_false]
  exact ⟨by trivial, by trivial, fun m => lookupReg_markUnknownUnsupported defs m⟩

/-- Claim C5, counterexample to the claim as stated: a register whose support
is Unknown when the batch is cancelled ends up marked Unsupported
(`some false`), not left in the Unknown state (`none`). -/
theorem claim_C5_cancel_counterexample :
    (async_probe_registers [(0, ⟨30000, 1, .READ_ONLY, .UINT16, 1, none, none⟩)]
        true .cancelled).exit = .raisedCancelled ∧
    lookupReg (async_probe_registers [(0, ⟨30000, 1, .READ_ONLY, .UINT16, 1, none, none⟩)]
        true .cancelled).defs 0 =
      some ⟨30000, 1, .READ_ONLY, .UINT16, 1, none, some false⟩ ∧
    (some false : Option Bool) ≠ none :=
  ⟨rfl, rfl, by decide⟩

/-- Claim C5, witness: the amended cancellation behaviour at a one-register
batch. -/
theorem claim_C5_cancel_marks_unsupported_witness :
    (async_probe_registers [(1, ⟨30001, 1, .HOLDING, .UINT16, 1, none, none⟩)]
        true .cancelled).exit = .raisedCancelled ∧
    (async_probe_registers [(1, ⟨30001, 1, .HOLDING, .UINT16, 1, none, none⟩)]
        true .cancelled).connected = true ∧
    ∀ m, lookupReg (async_probe_registers [(1, ⟨30001, 1, .HOLDING, .UINT16, 1, none, none⟩)]
        true .cancelled).defs m =
      (lookupReg [(1, ⟨30001, 1, .HOLDING, .UINT16, 1, none, none⟩)] m).map (fun rd =>
        if rd.is_supported = none then { rd with is_supported := some false } else rd) :=
  claim_C5_cancel_marks_unsupported [(1, ⟨30001, 1, .HOLDING, .UINT16, 1, none, none⟩)] true rfl

/-- Claim C6 (confirmed): per-task failures are contained — a register whose
own probe task raised is left Unknown (to be retried later) — while a failure
of the whole gather step marks every still-Unknown register of the batch
Unsupported and flags the endpoint connection as disconnected. -/
theorem claim_C6_failure_containment :
    (∀ (defs : RegisterDefs) (connected : Bool) (fate : Nat → TaskOutcome)
        (m : Nat) (rd : ModbusRegisterDefinition),
      (defs.map Prod.fst).Nodup →
      lookupReg defs m = some rd → rd.is_supported = none → fate m = .exn →
      lookupReg (async_probe_registers defs connected (.completed fate)).defs m = some rd) ∧
    (∀ (defs : RegisterDefs) (connected : Bool),
      (defs.filter (fun p => p.2.is_supported = none)).isEmpty = false →
      (async_probe_registers defs connected .gatherError).connected = false ∧
      ∀ m, lookupReg (async_probe_registers defs connected .gatherError).defs m =
        (lookupReg defs m).map (fun rd =>
          if rd.is_supported = none then { rd with is_supported := some false } else rd)) := by
  constructor
  · intro defs connected fate m rd hnd hm hnone hexn
    obtain ⟨q, hqf, hq⟩ : ∃ q, defs.find? (fun p => p.1 = m) = some q ∧ q.2 = rd := by
      unfold lookupReg at hm
      cases hf : defs.find? (fun p => p.1 = m) with
      | none => rw [hf] at hm; cases hm
      | some q => rw [hf] at hm; exact ⟨q, rfl, by simpa using hm⟩
    have hqm : q.1 = m := by simpa using List.find?_some hqf
    have hqd : q ∈ defs := List.mem_of_find?_eq_some hqf
    have hqt : q ∈ defs.filter (fun p => p.2.is_supported = none) :=
      List.mem_filter.mpr ⟨hqd, by simp [hq, hnone]⟩
    have he : (defs.filter (fun p => p.2.is_supported = none)).isEmpty = false := by
      cases hts : defs.filter (fun p => p.2.is_supported = none) with
      | nil => rw [hts] at hqt; cases hqt
      | cons a t => simp [hts]
    simp only [async_probe_registers, he, Bool.false_eq_true, if_false]
    rw [lookupReg_processResults_ne _ m ?_ defs]
    · exact hm
    · intro r hr x hx
      subst hx
      obtain ⟨p, hp, hpr⟩ := List.mem_map.mp hr
      obtain ⟨hpd, hpu⟩ := List.mem_filter.mp hp
      cases hf : fate p.1 with
      | exn => rw [hf] at hpr; cases hpr
      | resp resp =>
        rw [hf] at hpr
        have hx1 : x.1 = p.1 := by
          have := congrArg (fun o => o.map Prod.fst) hpr
          simpa [probe_result_name] using this.symm
        rw [hx1]
        intro hpm
        rw [hpm] at hf
        rw [hf] at hexn
        cases hexn
  · intro defs connected hne
    simp only [async_probe_registers, hne, Bool.false_eq_true, if_false]
    exact ⟨by trivial, fun m => lookupReg_markUnknownUnsupported defs m⟩

/-- Claim C6, witness: a one-register batch whose single task raised leaves
the register Unknown; a gather-level failure on the same batch marks it
Unsupported and downs the connection flag. -/
theorem claim_C6_failure_containment_witness :
    lookupReg (async_probe_registers [(2, ⟨30002, 1, .READ_ONLY, .UINT16, 1, none, none⟩)]
        true (.completed (fun _ => .exn))).defs 2 =
      some ⟨30002, 1, .READ_ONLY, .UINT16, 1, none, none⟩ ∧
    ((async_probe_registers [(2, ⟨30002, 1, .READ_ONLY, .UINT16, 1, none, none⟩)]
        true .gatherError).connected = false ∧
      ∀ m, lookupReg (async_probe_registers [(2, ⟨30002, 1, .READ_ONLY, .UINT16, 1, none, none⟩)]
          true .gatherError).defs m =
        (lookupReg [(2, ⟨30002, 1, .READ_ONLY, .UINT16, 1, none, none⟩)] m).map (fun rd =>
          if rd.is_supported = none then { rd with is_supported := some false } else rd)) :=
  ⟨claim_C6_failure_containment.1 [(2, ⟨30002, 1, .READ_ONLY, .UINT16, 1, none, none⟩)]
      true (fun _ => .exn) 2 ⟨30002, 1, .READ_ONLY, .UINT16, 1, none, none⟩
      (by simp) rfl rfl rfl,
    claim_C6_failure_containment.2 [(2, ⟨30002, 1, .READ_ONLY, .UINT16, 1, none, none⟩)] true rfl⟩

/-- Claim C7 (corrected, amended part): a WriteOnly register is never probed
by reading — the probe coroutine issues no read request for it — but its
probe result marks it UNSUPPORTED (`False`), not supported as the claim
stated; ReadOnly registers are probed with an input-register read and
ReadWrite (holding) registers with a holding-register read, both classified
by response validation. -/
theorem claim_C7_write_only_probe (name : Nat) (rd : ModbusRegisterDefinition)
    (resp : ProbeResponse) :
    (rd.register_type = .WRITE_ONLY →
      (_probe_single_register name rd resp).1 = none ∧
      (_probe_single_register name rd resp).2 = (name, false, none)) ∧
    (rd.register_type = .READ_ONLY →
      (_probe_single_register name rd resp).1 = some .input ∧
      (_probe_single_register name rd resp).2 =
        (name, _validate_register_response resp rd, none)) ∧
    (rd.register_type = .HOLDING →
      (_probe_single_register name rd resp).1 = some .holding ∧
      (_probe_single_register name rd resp).2 =
        (name, _validate_register_response resp rd, none)) := by
  refine ⟨fun h => ?_, fun h => ?_, fun h => ?_⟩ <;>
    simp [_probe_single_register, h]

/-- Claim C7, counterexample to the claim as stated: probing a WriteOnly
register issues no read, but the register ends the probe marked Unsupported
(`some false`), not Supported. -/
theorem claim_C7_write_only_counterexample :
    (_probe_single_register 3 ⟨41000, 1, .WRITE_ONLY, .UINT16, 1, none, none⟩ (.ok [1])).1
        = none ∧
    (_probe_single_register 3 ⟨41000, 1, .WRITE_ONLY, .UINT16, 1, none, none⟩ (.ok [1])).2
        = (3, false, none) ∧
    lookupReg (async_probe_registers [(3, ⟨41000, 1, .WRITE_ONLY, .UINT16, 1, none, none⟩)]
        true (.completed (fun _ => .resp (.ok [1])))).defs 3 =
      some ⟨41000, 1, .WRITE_ONLY, .UINT16, 1, none, some false⟩ ∧
    (some false : Option Bool) ≠ some true :=
  ⟨rfl, rfl, rfl, by decide⟩

/-- Claim C7, witness: the amended probe behaviour at a WriteOnly, a
ReadOnly and a holding register. -/
theorem claim_C7_write_only_probe_witness :
    ((⟨41000, 1, .WRITE_ONLY, .UINT16, 1, none, none⟩ : ModbusRegisterDefinition).register_type
        = .WRITE_ONLY →
      (_probe_single_register 3 ⟨41000, 1, .WRITE_ONLY, .UINT16, 1, none, none⟩ .failure).1
          = none ∧
      (_probe_single_register 3 ⟨41000, 1, .WRITE_ONLY, .UINT16, 1, none, none⟩ .failure).2
          = (3, false, none)) ∧
    ((⟨41000, 1, .WRITE_ONLY, .UINT16, 1, none, none⟩ : ModbusRegisterDefinition).register_type
        = .READ_ONLY →
      (_probe_single_register 3 ⟨41000, 1, .WRITE_ONLY, .UINT16, 1, none, none⟩ .failure).1
          = some .input ∧
      (_probe_single_register 3 ⟨41000, 1, .WRITE_ONLY, .UINT16, 1, none, none⟩ .failure).2
          = (3, _validate_register_response .failure
              ⟨41000, 1, .WRITE_ONLY, .UINT16, 1, none, none⟩, none)) ∧
    ((⟨41000, 1, .WRITE_ONLY, .UINT16, 1, none, none⟩ : ModbusRegisterDefinition).register_type
        = .HOLDING →
      (_probe_single_register 3 ⟨41000, 1, .WRITE_ONLY, .UINT16, 1, none, none⟩ .failure).1
          = some .holding ∧
      (_probe_single_register 3 ⟨41000, 1, .WRITE_ONLY, .UINT16, 1, none, none⟩ .failure).2
          = (3, _validate_register_response .failure
              ⟨41000, 1, .WRITE_ONLY, .UINT16, 1, none, none⟩, none)) :=
  claim_C7_write_only_probe 3 ⟨41000, 1, .WRITE_ONLY, .UINT16, 1, none, none⟩ .failure

/-- Claim C3 (corrected, amended part): for a successfully read, non-empty,
numeric register, the probe's support verdict is exactly the plausibility
check of the claim with the voltage, current, energy and power bounds applied
to the magnitude of the decoded value (`claimBoundCheck`); a protocol error
response is always classified unsupported. -/
theorem claim_C3_probe_classification (registers : List Nat)
    (rd : ModbusRegisterDefinition) (q : ℚ)
    (hne : registers ≠ []) (hnum : rd.data_type ≠ .STRING)
    (hdec : decode_value registers rd.data_type rd.gain = .num q) :
    _validate_register_response (.ok registers) rd = claimBoundCheck rd.unit q ∧
    _validate_register_response .failure rd = false := by
  refine ⟨?_, rfl⟩
  simp only [_validate_register_response]
  rw [if_neg (by simpa [List.isEmpty_iff] using hne), if_neg hnum, hdec]
  cases hu : rd.unit with
  | none => rfl
  | some u =>
    simp only [claimBoundCheck]
    split_ifs <;> try rfl
    all_goals
      simp [decide_eq_decide, abs_nonneg]

/-- Claim C3, counterexample to the claim as stated: a register with unit
"V" whose decoded value is -1500 satisfies the claim's literal voltage bound
(value at most 1000), yet the code classifies it Unsupported, because the
code bounds the magnitude `abs(value)` for voltage. -/
theorem claim_C3_magnitude_counterexample :
    decode_value [64036] .INT16 1 = .num (-1500) ∧
    ((-1500 : ℚ) ≤ 1000) ∧
    _validate_register_response (.ok [64036])
      ⟨31000, 1, .READ_ONLY, .INT16, 1, some ['V'], none⟩ = false := by
  have hconv : convert_from_registers [64036] .INT16 = .num (-1500) := by rfl
  have hdec : decode_value [64036] .INT16 1 = .num (-1500) := by
    simp [decode_value, hconv]
  refine ⟨hdec, by norm_num, ?_⟩
  have h := (claim_C3_probe_classification [64036]
    ⟨31000, 1, .READ_ONLY, .INT16, 1, some ['V'], none⟩ (-1500)
    (by decide) (by decide) hdec).1
  rw [h]
  have hcb : claimBoundCheck (some ['V']) (-1500 : ℚ) = decide (|(-1500 : ℚ)| ≤ 1000) := by
    simp only [claimBoundCheck]
    rw [if_pos (by decide)]
  rw [hcb]
  norm_num

/-- Claim C3, witness: the amended classification applied at an in-bounds
voltage reading (raw 2300, scale 10, so 230.0 V), which is classified
Supported. -/
theorem claim_C3_probe_classification_witness :
    (_validate_register_response (.ok [2300])
        ⟨31001, 1, .READ_ONLY, .UINT16, 10, some ['V'], none⟩ =
      claimBoundCheck (some ['V']) 230 ∧
    _validate_register_response .failure
        ⟨31001, 1, .READ_ONLY, .UINT16, 10, some ['V'], none⟩ = false) ∧
    claimBoundCheck (some ['V']) (230 : ℚ) = true :=
  ⟨claim_C3_probe_classification [2300] ⟨31001, 1, .READ_ONLY, .UINT16, 10, some ['V'], none⟩
      230 (by decide) (by decide)
      (by
        have hconv : convert_from_registers [2300] .UINT16 = .num 2300 := by rfl
        simp [decode_value, hconv]
        norm_num),
    by
      have hcb : claimBoundCheck (some ['V']) (230 : ℚ) = decide (|(230 : ℚ)| ≤ 1000) := by
        simp only [claimBoundCheck]
        rw [if_pos (by decide)]
      rw [hcb]
      norm_num⟩

/-- Claim C9 (confirmed): read-only mode defaults to on, and whenever the
global read-only flag is set every Parameter Writer call fails with the
write-rejected error before any network I/O — the transport call count is
zero. -/
theorem claim_C9_read_only_gate :
    DEFAULT_READ_ONLY = true ∧
    hubReadOnly none = true ∧
    ∀ (ro : Bool) (rd : ModbusRegisterDefinition) (v : ℚ), ro = true →
      (write_parameter ro rd v).result = .error .readOnlyMode ∧
      (write_parameter ro rd v).transportCalls = 0 := by
  refine ⟨rfl, rfl, ?_⟩
  rintro ro rd v rfl
  exact ⟨rfl, rfl⟩

/-- Claim C9, witness: a write of 70.0 to a holding register with the
read-only flag up is rejected with zero transport calls. -/
theorem claim_C9_read_only_gate_witness :
    (write_parameter true ⟨40000, 1, .HOLDING, .UINT16, 10, none, none⟩ 70).result =
      .error .readOnlyMode ∧
    (write_parameter true ⟨40000, 1, .HOLDING, .UINT16, 10, none, none⟩ 70).transportCalls = 0 :=
  claim_C9_read_only_gate.2.2 true ⟨40000, 1, .HOLDING, .UINT16, 10, none, none⟩ 70 rfl

theorem client_eq_zero {cl : Option (Fin 2)} (h1 : cl.isSome = true) (h2 : cl ≠ some 1) :
    cl = some 0 := by
  cases cl with
  | none => cases h1
  | some t =>
    fin_cases t
    · rfl
    · exact absurd rfl h2

theorem core_acqStep (s : AcqState) (c : Bool) : (acqStep s c).core = coreStep s.core c := by
  obtain ⟨p1, p2, l, cl, co, cc, nt, r1, r2⟩ := s
  cases c <;>
    simp only [acqStep, coreStep, AcqState.core, AcqState.pc, AcqCore.pc,
      AcqState.setPc, AcqCore.setPc, AcqState.setRes, if_true, if_false,
      Bool.false_eq_true, Bool.true_eq_false] <;>
    split_ifs <;> rfl

theorem coreStep_inv : ∀ t : AcqCore, AcqInvCore t → ∀ c : Bool, AcqInvCore (coreStep t c) := by
  intro t
  obtain ⟨a, b, l, cl, co, cc, nt⟩ := t
  revert a b l cl co cc nt
  decide

theorem acqStep_resOK (s : AcqState) (h : AcqInvCore s.core) (hr : AcqResOK s) (c : Bool) :
    AcqResOK (acqStep s c) := by
  obtain ⟨p1, p2, l, cl, co, cc, nt, r1, r2⟩ := s
  obtain ⟨hA, hB, hC, hD1, hD2, hE1, hE2, hF1, hF2, hG1, hG2, hH, hK⟩ := h
  obtain ⟨hr1, hr2⟩ := hr
  simp only [AcqState.core] at hA hB hC hD1 hD2 hE1 hE2 hF1 hF2 hG1 hG2 hH hK
  simp only [AcqResOK] at hr1 hr2 ⊢
  cases c <;>
    simp only [acqStep, AcqState.pc, AcqState.setPc, AcqState.setRes, if_true, if_false,
      Bool.false_eq_true, Bool.true_eq_false] <;>
    split_ifs <;>
    simp_all <;>
    (apply client_eq_zero <;> simp_all)

theorem acqInit_core_inv : AcqInvCore acqInit.core := by decide

theorem acqInit_resOK : AcqResOK acqInit := by
  constructor <;> intro h <;> cases h

theorem acqRun_inv_aux : ∀ (sched : List Bool) (s : AcqState),
    AcqInvCore s.core → AcqResOK s →
    AcqInvCore (sched.foldl acqStep s).core ∧ AcqResOK (sched.foldl acqStep s)
  | [], _, h, hr => ⟨h, hr⟩
  | c :: t, s, h, hr =>
    acqRun_inv_aux t (acqStep s c)
      (by rw [core_acqStep]; exact coreStep_inv s.core h c)
      (acqStep_resOK s h hr c)

theorem acqRun_inv (sched : List Bool) :
    AcqInvCore (acqRun sched).core ∧ AcqResOK (acqRun sched) :=
  acqRun_inv_aux sched acqInit acqInit_core_inv acqInit_resOK

/-- Claim C10 (confirmed): under every interleaving of two concurrent
`_get_client` calls for the same endpoint in which both callers have
returned, exactly one transport connect attempt was made and both callers
hold the same client instance. -/
theorem claim_C10_single_connect (sched : List Bool)
    (h1 : (acqRun sched).pc1 = 5) (h2 : (acqRun sched).pc2 = 5) :
    (acqRun sched).connectCount = 1 ∧
    (acqRun sched).res1 = (acqRun sched).res2 ∧
    (acqRun sched).res1 ≠ none := by
  obtain ⟨⟨hA, -, -, -, -, -, -, -, -, hG1, hG2, -, -⟩, hr1, hr2⟩ := acqRun_inv sched
  have hco : (acqRun sched).core.connected = true := hG1 h1
  have hc1 : (acqRun sched).connectCount = 1 := by
    have := hA
    rw [hco] at this
    exact this
  have hv1 : (acqRun sched).res1 = some 0 := hr1 h1
  have hv2 : (acqRun sched).res2 = some 0 := hr2 h2
  refine ⟨hc1, ?_, ?_⟩
  · rw [hv1, hv2]
  · rw [hv1]
    decide

/-- Claim C10, witness: the schedule in which caller 1 runs to completion
and caller 2 then takes the fast path; both finish, one connect attempt was
made, and both hold the same client. -/
theorem claim_C10_single_connect_witness :
    (acqRun [true, true, true, true, true, false]).connectCount = 1 ∧
    (acqRun [true, true, true, true, true, false]).res1 =
      (acqRun [true, true, true, true, true, false]).res2 ∧
    (acqRun [true, true, true, true, true, false]).res1 ≠ none :=
  claim_C10_single_connect [true, true, true, true, true, false] (by decide) (by decide)

end SigenModbus
